import Mathlib

/-!
Shallow embedding of the zamunda-api client (src/zamunda_api/zamunda.py).

The module under embedding is a synchronous HTTP scraping client with three
public operations, `login`, `search` and `search_multi`, plus the internal
resolution step `get_torrent`.  Network traffic is modelled by an explicit
environment: a function from the index of the login POST to its outcome, and
a function from a URL string to the outcome of a GET on it.  Python
exceptions are values of an explicit exception type; Python `except` clauses
become matches on that type that reproduce the exception-class hierarchy of
the interpreter (in particular, `requests.exceptions.ConnectionError` is not
a subclass of the builtin `ConnectionError`, while `requests.Timeout` and
`requests.exceptions.HTTPError` are subclasses of
`requests.exceptions.RequestException`).
-/

namespace Zamunda

/-- The Python exception values that the embedded code can raise or catch.
`requestsConnectionError` is `requests.exceptions.ConnectionError`;
`builtinConnectionError` is the builtin `ConnectionError`; `httpError` is the
`requests.exceptions.HTTPError` produced by `response.raise_for_status()`;
`otherRequestException` stands for any other subclass of
`requests.exceptions.RequestException`; `runtimeError` is the
`RuntimeError("Login failed after multiple attempts.")` raised after the
login loop. -/
inductive PyExc
  | valueError
  | indexError
  | keyError
  | attributeError
  | timeout
  | requestsConnectionError
  | builtinConnectionError
  | httpError (code : Nat)
  | otherRequestException
  | runtimeError
deriving DecidableEq

/-- Outcome of one `session.post` call during login: an HTTP status code, or
a raised exception. -/
inductive ReqOutcome
  | status (code : Nat)
  | exc (e : PyExc)
deriving DecidableEq

deriving instance DecidableEq for Except

/-- Observable trace of one `login` call: its result (success or the
propagated exception), the list of `time.sleep` durations performed, in
order, and the number of POST requests issued. -/
structure LoginTrace where
  result : Except PyExc Unit
  sleeps : List Nat
  calls : Nat
deriving DecidableEq

/-- The `while attempt <= retries` loop of `Zamunda.login`, lines 46-76.
`net` gives the outcome of the i-th POST.  Faithful points: the first
`except` clause names the builtin `ConnectionError`, so only
`builtinConnectionError` reaches the retry-and-sleep branch; `Timeout` and
every `RequestException` (and any other exception, then uncaught) propagate
at once; `response.raise_for_status()` raises `HTTPError` exactly for status
codes in [400, 600), and for any other non-200 status the loop body ends
without raising and the loop re-runs with `attempt` unchanged.  The `fuel`
argument bounds the recursion; `login` passes `retries + 2`, which every
terminating run fits in (each connection retry increments `attempt`, which
is bounded by `retries`).  Exhausted fuel, and the `attempt > retries` loop
exit (which in the source raises `RuntimeError`, line 78), both yield
`runtimeError`; the former is only reachable through an unbounded run of
non-raising non-200 statuses, a path no claim touches. -/
def loginAux (net : Nat → ReqOutcome) (retries bf : Nat) :
    Nat → Nat → Nat → LoginTrace
  | 0, _, _ => ⟨.error .runtimeError, [], 0⟩
  | fuel + 1, call, attempt =>
    if attempt > retries then ⟨.error .runtimeError, [], 0⟩
    else
      match net call with
      | .status code =>
        if code = 200 then ⟨.ok (), [], 1⟩
        else if 400 ≤ code ∧ code < 600 then ⟨.error (.httpError code), [], 1⟩
        else
          let t := loginAux net retries bf fuel (call + 1) attempt
          ⟨t.result, t.sleeps, t.calls + 1⟩
      | .exc e =>
        match e with
        | .builtinConnectionError =>
          if attempt + 1 > retries then ⟨.error .builtinConnectionError, [], 1⟩
          else
            let t := loginAux net retries bf fuel (call + 1) (attempt + 1)
            ⟨t.result, bf ^ (attempt + 1) :: t.sleeps, t.calls + 1⟩
        | e => ⟨.error e, [], 1⟩

/-- `Zamunda.login(user, password, retries=3, backoff_factor=2)`, lines
29-78.  Empty user or password raises `ValueError` before any request. -/
def login (net : Nat → ReqOutcome) (user password : String)
    (retries bf : Nat) : LoginTrace :=
  if user = "" ∨ password = "" then ⟨.error .valueError, [], 0⟩
  else loginAux net retries bf (retries + 2) 0 0

/-! ## The HTML view used by the row parser

`search` and `search_multi` interrogate the parsed page only through a fixed
set of BeautifulSoup queries; a page is embedded as the answers to exactly
those queries.  An `img` carries its `src` attribute (absent attribute gives
`None`, whose `.endswith` raises `AttributeError`); an anchor carries its
`href` attribute (subscripting an absent attribute raises `KeyError`). -/

/-- An `<img>` tag: `i.get('src')`. -/
structure Img where
  src : Option String
deriving DecidableEq

/-- An `<a>` tag inside the details `<div>`: `href['href']`. -/
structure Anchor where
  href : Option String
deriving DecidableEq

/-- A `<b>` tag: `.get_text()`. -/
structure BTag where
  text : String
deriving DecidableEq

/-- The first `<a>` of the name cell: `tds[1].find('a')` then `.find('b')`. -/
structure ATag where
  firstB : Option BTag
deriving DecidableEq

/-- The first `<div>` of the name cell: `.find('div')` then `.find_all('a')`. -/
structure DivTag where
  anchors : List Anchor
deriving DecidableEq

/-- A `<td>` cell, as queried by the row parser: `find('a')`, `find('div')`,
`get_text()`, `find_all('img')`. -/
structure Td where
  firstA : Option ATag
  firstDiv : Option DivTag
  text : String
  imgs : List Img
deriving DecidableEq

/-- A `<tr>` row: `tr.find_all('td')`. -/
structure Tr where
  tds : List Td
deriving DecidableEq

/-- The results table: `table.find_all('tr')`. -/
structure ZbTable where
  trs : List Tr
deriving DecidableEq

/-- A parsed page: `soup.find('table', {'id': "zbtable"})`, `None` when the
table is absent. -/
structure Page where
  zbtable : Option ZbTable
deriving DecidableEq

/-- A decoded torrent file (`torrentool.api.Torrent`): the attributes the
client reads. -/
structure TorrentFile where
  magnet_link : String
  info_hash : String
  files : List String
deriving DecidableEq

/-- What `get_torrent` hands back to its caller: a real decoded torrent, or
the `DummyTorrent` built on a non-200 response.  `DummyTorrent` defines
`magnet_link = None` and `info_hash = None` and nothing else (lines
219-223); in particular it has no `files` attribute, so reading `.files` on
it raises `AttributeError`. -/
inductive TorrentObj
  | real (t : TorrentFile)
  | dummy
deriving DecidableEq

/-- Attribute `magnet_link`: a string on a real torrent, `None` on the
dummy. -/
def TorrentObj.magnetLink : TorrentObj → Option String
  | .real t => some t.magnet_link
  | .dummy => none

/-- Attribute `info_hash`: a string on a real torrent, `None` on the
dummy. -/
def TorrentObj.infoHash : TorrentObj → Option String
  | .real t => some t.info_hash
  | .dummy => none

/-- Attribute `files`: present on a real torrent; absent on the dummy, so
accessing it raises `AttributeError`. -/
def TorrentObj.filesAttr : TorrentObj → Except PyExc (List String)
  | .real t => .ok t.files
  | .dummy => .error .attributeError

/-- Outcome of a `session.get(url)`: a raised exception, or a response
carrying a status code together with the two views of its body the client
uses — `response.text` parsed as HTML, and `response.content` decoded by
`Torrent.from_string` (which may itself raise, hence `Except`). -/
inductive GetResult
  | exc (e : PyExc)
  | resp (status : Nat) (page : Page) (torrent : Except PyExc TorrentFile)
deriving DecidableEq

/-- The network environment of one client: outcomes of the login POSTs and
of GETs by URL. -/
structure Env where
  postLogin : Nat → ReqOutcome
  get : String → GetResult

/-- One emitted result record, with the dict keys of lines 124-133 as
fields.  `magnetlink`, `infohash` and `files` are `Option` because the
source can store Python `None` there. -/
structure SearchResult where
  name : String
  magnetlink : Option String
  seeders : String
  bg_audio : Bool
  size : String
  infohash : Option String
  files : Option (List String)
deriving DecidableEq

/-! ## Python primitive helpers -/

/-- Subscripting an absent tag attribute (`href['href']`) raises
`KeyError`. -/
def pyItem {α : Type} (o : Option α) : Except PyExc α :=
  match o with
  | some x => .ok x
  | none => .error .keyError

/-- Python list indexing with negative-index wraparound; out of range raises
`IndexError`. -/
def pyIdx {α : Type} (l : List α) (i : Int) : Except PyExc α :=
  let j : Int := if i < 0 then i + l.length else i
  if h : 0 ≤ j ∧ j.toNat < l.length then .ok (l.get ⟨j.toNat, h.2⟩)
  else .error .indexError

/-- `ss.replace(" ", "+")`: the pattern is the single space character, so
the call maps every space to a plus sign. -/
def plusEncode (s : String) : String :=
  ⟨s.data.map fun c => if c = ' ' then '+' else c⟩

/-- Python `str.startswith` for a plain string prefix. -/
def pyStartsWith (s pre : String) : Bool :=
  pre.data.isPrefixOf s.data

/-- Python `str.endswith` for a plain string suffix. -/
def pyEndsWith (s suf : String) : Bool :=
  suf.data.isSuffixOf s.data

/-- One step of the audio test: `i.get('src').endswith("bgaudio.png")`;
an `<img>` without `src` makes `.endswith` an attribute access on `None`. -/
def srcEndsWithBgaudio (i : Img) : Except PyExc Bool :=
  match i.src with
  | none => .error .attributeError
  | some s => .ok (pyEndsWith s "bgaudio.png")

/-- `any(i.get('src').endswith("bgaudio.png") for i in imgs)` — the
generator form used by `search_multi` (line 179), which stops at the first
true element. -/
def anyAudioGen : List Img → Except PyExc Bool
  | [] => .ok false
  | i :: rest =>
    match srcEndsWithBgaudio i with
    | .error e => .error e
    | .ok true => .ok true
    | .ok false => anyAudioGen rest

/-- `any([i.get('src').endswith("bgaudio.png") for i in imgs])` — the
list-comprehension form used by `search` (line 119), which evaluates every
element before `any` runs. -/
def anyAudioList (imgs : List Img) : Except PyExc Bool :=
  match imgs.mapM srcEndsWithBgaudio with
  | .error e => .error e
  | .ok bs => .ok (bs.any id)

/-! ## The search machinery -/

/-- The site base address, `self.base`. -/
def base : String := "https://zamunda.net"

/-- The query URL built by `search` and `search_multi` (lines 96 and
154-155). -/
def searchUrl (ss : String) : String :=
  base ++ "/bananas?search=" ++ plusEncode ss ++
    "&gotonext=1&incldead=&field=name&sort=9&type=desc"

/-- `Zamunda.get_torrent(href)`, lines 200-223: GET `base + href`; on a 200
decode the body as a torrent (decode failure propagates); on any other
status print and return a `DummyTorrent`. -/
def get_torrent (env : Env) (href : String) : Except PyExc TorrentObj :=
  match env.get (base ++ href) with
  | .exc e => .error e
  | .resp status _ torrent =>
    if status = 200 then torrent.map TorrentObj.real
    else .ok TorrentObj.dummy

/-- Construction of the dict appended for one matching anchor (lines
123-133 and 184-193): fetch the torrent, then build the record; the `files`
value is computed only when `provide_files` is true, which on a dummy
torrent raises `AttributeError`. -/
def mkRecord (env : Env) (pi pf : Bool) (name seeds : String) (audio : Bool)
    (size href : String) : Except PyExc SearchResult :=
  match get_torrent env href with
  | .error e => .error e
  | .ok t =>
    match (if pf then (TorrentObj.filesAttr t).map some else .ok none) with
    | .error e => .error e
    | .ok files =>
      .ok { name := name, magnetlink := t.magnetLink, seeders := seeds,
            bg_audio := audio, size := size,
            infohash := if pi then t.infoHash else none, files := files }

/-- The `for href in hrefs` loop of one row (lines 120-133 / 181-193).  The
records are appended to a mutable list as the loop runs, so a failure midway
keeps the records already appended: the result is the list of records
emitted before the failure, paired with the raised exception if any. -/
def emitAnchors (env : Env) (pi pf : Bool) (name seeds : String)
    (audio : Bool) (size : String) :
    List Anchor → List SearchResult × Option PyExc
  | [] => ([], none)
  | a :: rest =>
    match pyItem a.href with
    | .error e => ([], some e)
    | .ok h =>
      if pyStartsWith h "/download.php" then
        match mkRecord env pi pf name seeds audio size h with
        | .error e => ([], some e)
        | .ok r =>
          let t := emitAnchors env pi pf name seeds audio size rest
          (r :: t.1, t.2)
      else emitAnchors env pi pf name seeds audio size rest

/-- Extraction of one row's components (lines 113-119 / 172-179): name from
`tds[1].find('a').find('b')`, anchors from `tds[1].find('div')`, seeders
from `tds[-2]`, size from `tds[-4]`, audio flag from the `<img>` sources.
`gen` selects the audio variant: `search_multi` uses the short-circuiting
generator, `search` the full list comprehension.  (`search_multi` reads
`size` before collecting `imgs`; as collecting `imgs` cannot raise, the
exception behaviour is identical to this ordering.) -/
def rowHeader (gen : Bool) (tr : Tr) :
    Except PyExc (String × List Anchor × String × String × Bool) :=
  match pyIdx tr.tds 1 with
  | .error e => .error e
  | .ok td1 =>
    match td1.firstA with
    | none => .error .attributeError
    | some a =>
      match a.firstB with
      | none => .error .attributeError
      | some b =>
        match td1.firstDiv with
        | none => .error .attributeError
        | some d =>
          match pyIdx tr.tds (-2) with
          | .error e => .error e
          | .ok tdSeeds =>
            match pyIdx tr.tds (-4) with
            | .error e => .error e
            | .ok tdSize =>
              match (if gen then anyAudioGen td1.imgs else anyAudioList td1.imgs) with
              | .error e => .error e
              | .ok audio =>
                .ok (b.text, d.anchors, tdSeeds.text, tdSize.text, audio)

/-- Processing of one `<tr>`: the records it appends before any failure,
and the exception raised during it, if any. -/
def processRow (env : Env) (pi pf gen : Bool) (tr : Tr) :
    List SearchResult × Option PyExc :=
  match rowHeader gen tr with
  | .error e => ([], some e)
  | .ok (name, hrefs, seeds, size, audio) =>
    emitAnchors env pi pf name seeds audio size hrefs

/-- The row loop of `search` (lines 112-133): rows are processed in order
into the accumulated `data` list; there is no `try` around a row, so the
first exception aborts the whole call (discarding `data`). -/
def searchRows (env : Env) (pi pf : Bool) :
    List Tr → List SearchResult → Except PyExc (List SearchResult)
  | [], acc => .ok acc
  | tr :: rest, acc =>
    match processRow env pi pf false tr with
    | (recs, none) => searchRows env pi pf rest (acc ++ recs)
    | (_, some e) => .error e

/-- `Zamunda.search(ss, user, password, provide_infohash, provide_files)`,
lines 80-134.  The `try` wraps only `self.login`, whose exception (of any
class) turns into `return None`; the GET, the table lookup and the row loop
run unprotected. -/
def search (env : Env) (ss user password : String) (pi pf : Bool) :
    Except PyExc (Option (List SearchResult)) :=
  match (login env.postLogin user password 3 2).result with
  | .error _ => .ok none
  | .ok _ =>
    match env.get (searchUrl ss) with
    | .exc e => .error e
    | .resp status page _ =>
      if status ≠ 200 then .ok (some [])
      else
        match page.zbtable with
        | none => .ok (some [])
        | some table =>
          (searchRows env pi pf (table.trs.drop 1) []).map some

/-- The row loop of one `search_multi` query (lines 170-196): each row runs
inside `try ... except Exception: continue`, so a row failure keeps the
records the row already appended and moves to the next row. -/
def multiRowsAcc (env : Env) (pi pf : Bool) :
    List SearchResult → List Tr → List SearchResult
  | acc, [] => acc
  | acc, tr :: rest =>
    multiRowsAcc env pi pf (acc ++ (processRow env pi pf true tr).1) rest

/-- The query loop of `search_multi` (lines 153-196): a non-200 response or
a missing table skips the query; a raised GET exception is uncaught and
aborts the call. -/
def multiGo (env : Env) (pi pf : Bool) :
    List String → List SearchResult → Except PyExc (List SearchResult)
  | [], acc => .ok acc
  | q :: rest, acc =>
    match env.get (searchUrl q) with
    | .exc e => .error e
    | .resp status page _ =>
      if status ≠ 200 then multiGo env pi pf rest acc
      else
        match page.zbtable with
        | none => multiGo env pi pf rest acc
        | some table =>
          multiGo env pi pf rest (multiRowsAcc env pi pf acc (table.trs.drop 1))

/-- `Zamunda.search_multi(queries, user, password, ...)`, lines 136-198:
login once (any login exception yields `[]`), then the query loop. -/
def search_multi (env : Env) (queries : List String) (user password : String)
    (pi pf : Bool) : Except PyExc (List SearchResult) :=
  match (login env.postLogin user password 3 2).result with
  | .error _ => .ok []
  | .ok _ => multiGo env pi pf queries []

/-! ## Derived notions used by the claims -/

/-- The anchors of a row, as the row parser would collect them
(`tds[1].find('div').find_all('a')`), or `[]` when that extraction cannot
reach a `<div>`. -/
def rowAnchors (tr : Tr) : List Anchor :=
  match pyIdx tr.tds 1 with
  | .ok td =>
    match td.firstDiv with
    | some d => d.anchors
    | none => []
  | .error _ => []

/-- The hrefs of a row's anchors that the code emits a record for: those
present and beginning with the download-file pattern. -/
def downloadHrefs (anchors : List Anchor) : List String :=
  (anchors.filterMap Anchor.href).filter fun h => pyStartsWith h "/download.php"

/-- Modelled from the spec: the two "recognized href patterns" of §3 and
§4.2 — a download-file link or a direct magnet-generating link.  The code
under src only ever tests `/download.php`; the magnet-generating endpoint
pattern does not occur in it, and following the resolver description of
§4.3(a) it is taken to be the site's magnet-link endpoint, embedded here as
hrefs under `/magnetlink`. -/
def specRecognizedHref (h : String) : Bool :=
  pyStartsWith h "/download.php" || pyStartsWith h "/magnetlink"

/-- Per-query result list of `search_multi`, lines 153-196, for the stated
form of its accumulation law: a skipped query (non-200 or no table)
contributes nothing, and each row contributes exactly the records it
appended before failing, if it fails at all. -/
def queryOut (env : Env) (pi pf : Bool) (q : String) : List SearchResult :=
  match env.get (searchUrl q) with
  | .exc _ => []
  | .resp status page _ =>
    if status ≠ 200 then []
    else
      match page.zbtable with
      | none => []
      | some table =>
        ((table.trs.drop 1).map fun tr => (processRow env pi pf true tr).1).flatten

/-! ## Structural lemmas about the embedded operations -/

/-- A record built by `mkRecord` carries the row's name, seeders, size and
audio flag, and its optional fields are `None` whenever the corresponding
option is off. -/
theorem mkRecord_fields {env : Env} {pi pf : Bool} {name seeds : String}
    {audio : Bool} {size href : String} {r : SearchResult}
    (hr : mkRecord env pi pf name seeds audio size href = .ok r) :
    r.name = name ∧ r.seeders = seeds ∧ r.size = size ∧ r.bg_audio = audio ∧
    (pi = false → r.infohash = none) ∧ (pf = false → r.files = none) := by
  unfold mkRecord at hr
  split at hr
  · exact absurd hr (by simp)
  · split at hr
    · exact absurd hr (by simp)
    · rename_i t hfiles files hok
      cases hr
      refine ⟨rfl, rfl, rfl, rfl, ?_, ?_⟩
      · intro hpi; simp [hpi]
      · intro hpf
        rw [hpf] at hok
        simp at hok
        exact hok.symm

/-- When the anchor loop of a row raises nothing, it emits exactly one
record per download-pattern href, in href order. -/
theorem emitAnchors_forall2 (env : Env) (pi pf : Bool) (name seeds : String)
    (audio : Bool) (size : String) :
    ∀ hrefs : List Anchor,
      (emitAnchors env pi pf name seeds audio size hrefs).2 = none →
      List.Forall₂ (fun h r => mkRecord env pi pf name seeds audio size h = .ok r)
        (downloadHrefs hrefs) (emitAnchors env pi pf name seeds audio size hrefs).1 := by
  intro hrefs
  induction hrefs with
  | nil => intro _; simp [emitAnchors, downloadHrefs]
  | cons a rest ih =>
    intro h2
    cases ha : a.href with
    | none =>
      exfalso
      simp [emitAnchors, pyItem, ha] at h2
    | some s =>
      by_cases hs : pyStartsWith s "/download.php" = true
      · cases hm : mkRecord env pi pf name seeds audio size s with
        | error e =>
          exfalso
          simp [emitAnchors, pyItem, ha, hs, hm] at h2
        | ok r =>
          have h2r : (emitAnchors env pi pf name seeds audio size rest).2 = none := by
            simpa [emitAnchors, pyItem, ha, hs, hm] using h2
          have hrec := ih h2r
          simp only [emitAnchors, pyItem, ha, hs, hm, if_true, downloadHrefs,
            List.filterMap_cons, List.filter_cons]
          exact List.Forall₂.cons hm (by simpa [downloadHrefs] using hrec)
      · have hs2 : pyStartsWith s "/download.php" = false := by
          simpa using hs
        have h2r : (emitAnchors env pi pf name seeds audio size rest).2 = none := by
          simpa [emitAnchors, pyItem, ha, hs2] using h2
        have hrec := ih h2r
        simp only [emitAnchors, pyItem, ha, hs2, downloadHrefs,
          List.filterMap_cons, List.filter_cons]
        simpa [downloadHrefs, hs2] using hrec

/-- Every record the anchor loop emits comes from an anchor whose href is
present and starts with the download pattern. -/
theorem mem_emitAnchors {env : Env} {pi pf : Bool} {name seeds : String}
    {audio : Bool} {size : String} {r : SearchResult} :
    ∀ {hrefs : List Anchor},
      r ∈ (emitAnchors env pi pf name seeds audio size hrefs).1 →
      ∃ a ∈ hrefs, ∃ h, a.href = some h ∧ pyStartsWith h "/download.php" = true ∧
        mkRecord env pi pf name seeds audio size h = .ok r := by
  intro hrefs
  induction hrefs with
  | nil => intro hmem; simp [emitAnchors] at hmem
  | cons a rest ih =>
    intro hmem
    cases ha : a.href with
    | none => simp [emitAnchors, pyItem, ha] at hmem
    | some s =>
      by_cases hs : pyStartsWith s "/download.php" = true
      · cases hm : mkRecord env pi pf name seeds audio size s with
        | error e => simp [emitAnchors, pyItem, ha, hs, hm] at hmem
        | ok r0 =>
          simp only [emitAnchors, pyItem, ha, hs, hm, if_true, List.mem_cons] at hmem
          cases hmem with
          | inl hre =>
            exact ⟨a, List.mem_cons_self a rest, s, ha, hs, hre ▸ hm⟩
          | inr hmem =>
            obtain ⟨a2, ha2, h2, hh2⟩ := ih hmem
            exact ⟨a2, List.mem_cons_of_mem a ha2, h2, hh2⟩
      · have hs2 : pyStartsWith s "/download.php" = false := by simpa using hs
        simp only [emitAnchors, pyItem, ha, hs2, Bool.false_eq_true, if_false] at hmem
        obtain ⟨a2, ha2, h2, hh2⟩ := ih hmem
        exact ⟨a2, List.mem_cons_of_mem a ha2, h2, hh2⟩

/-- A row none of whose anchors matches either recognized pattern emits no
record at all. -/
theorem emitAnchors_nil_of_unrecognized {env : Env} {pi pf : Bool}
    {name seeds : String} {audio : Bool} {size : String} :
    ∀ {hrefs : List Anchor},
      (∀ a ∈ hrefs, ∀ h, a.href = some h → specRecognizedHref h = false) →
      (emitAnchors env pi pf name seeds audio size hrefs).1 = [] := by
  intro hrefs
  induction hrefs with
  | nil => intro _; simp [emitAnchors]
  | cons a rest ih =>
    intro hno
    cases ha : a.href with
    | none => simp [emitAnchors, pyItem, ha]
    | some s =>
      have hrec : specRecognizedHref s = false :=
        hno a (List.mem_cons_self a rest) s ha
      have hs : pyStartsWith s "/download.php" = false := by
        unfold specRecognizedHref at hrec
        exact (Bool.or_eq_false_iff.mp hrec).1
      simp only [emitAnchors, pyItem, ha, hs, Bool.false_eq_true, if_false]
      exact ih fun a2 ha2 h hh => hno a2 (List.mem_cons_of_mem a ha2) h hh

/-- A successful `rowHeader` extraction returns exactly the anchors of the
row's details cell. -/
theorem rowHeader_anchors {gen : Bool} {tr : Tr} {name : String}
    {hrefs : List Anchor} {seeds size : String} {audio : Bool}
    (h : rowHeader gen tr = .ok (name, hrefs, seeds, size, audio)) :
    hrefs = rowAnchors tr := by
  unfold rowHeader at h
  repeat' split at h
  all_goals simp_all [rowAnchors]

/-- Every record a row emits comes from a present href of that row's
anchors matching the download pattern, through `mkRecord`. -/
theorem mem_processRow {env : Env} {pi pf gen : Bool} {tr : Tr} {r : SearchResult}
    (hmem : r ∈ (processRow env pi pf gen tr).1) :
    ∃ name seeds audio size, ∃ a ∈ rowAnchors tr, ∃ h, a.href = some h ∧
      pyStartsWith h "/download.php" = true ∧
      mkRecord env pi pf name seeds audio size h = .ok r := by
  unfold processRow at hmem
  cases hrh : rowHeader gen tr with
  | error e => rw [hrh] at hmem; simp at hmem
  | ok tup =>
    obtain ⟨name, hrefs, seeds, size, audio⟩ := tup
    rw [hrh] at hmem
    obtain ⟨a, ha, h, hh⟩ := mem_emitAnchors hmem
    exact ⟨name, seeds, audio, size, a, rowHeader_anchors hrh ▸ ha, h, hh⟩

/-- A row without a single recognized anchor emits nothing, whatever else
it contains. -/
theorem processRow_nil_of_unrecognized {env : Env} {pi pf gen : Bool} {tr : Tr}
    (hno : ∀ a ∈ rowAnchors tr, ∀ h, a.href = some h → specRecognizedHref h = false) :
    (processRow env pi pf gen tr).1 = [] := by
  unfold processRow
  cases hrh : rowHeader gen tr with
  | error e => simp
  | ok tup =>
    obtain ⟨name, hrefs, seeds, size, audio⟩ := tup
    simp only
    exact emitAnchors_nil_of_unrecognized
      fun a ha h hh => hno a (rowHeader_anchors hrh ▸ ha) h hh

/-- When no row raises, the row loop of `search` returns the concatenation
of the rows' records, in row order. -/
theorem searchRows_ok (env : Env) (pi pf : Bool) :
    ∀ (trs : List Tr) (acc : List SearchResult),
      (∀ tr ∈ trs, (processRow env pi pf false tr).2 = none) →
      searchRows env pi pf trs acc =
        .ok (acc ++ (trs.map fun tr => (processRow env pi pf false tr).1).flatten) := by
  intro trs
  induction trs with
  | nil => intro acc _; simp [searchRows]
  | cons tr rest ih =>
    intro acc hall
    have h2 : (processRow env pi pf false tr).2 = none :=
      hall tr (List.mem_cons_self _ _)
    rcases hpr : processRow env pi pf false tr with ⟨recs, e2⟩
    rw [hpr] at h2
    simp only at h2
    subst h2
    have hrest : ∀ tr2 ∈ rest, (processRow env pi pf false tr2).2 = none :=
      fun tr2 htr2 => hall tr2 (List.mem_cons_of_mem tr htr2)
    calc searchRows env pi pf (tr :: rest) acc
        = searchRows env pi pf rest (acc ++ recs) := by
          simp only [searchRows, hpr]
      _ = .ok ((acc ++ recs) ++ (rest.map fun t => (processRow env pi pf false t).1).flatten) :=
          ih (acc ++ recs) hrest
      _ = .ok (acc ++ ((tr :: rest).map fun t => (processRow env pi pf false t).1).flatten) := by
          simp [hpr, List.append_assoc]

/-- A property holding of every record every row emits holds of everything
the row loop of `search` returns. -/
theorem searchRows_preserve {env : Env} {pi pf : Bool} (P : SearchResult → Prop)
    (hrow : ∀ tr r, r ∈ (processRow env pi pf false tr).1 → P r) :
    ∀ (trs : List Tr) (acc L : List SearchResult),
      (∀ r ∈ acc, P r) → searchRows env pi pf trs acc = .ok L →
      ∀ r ∈ L, P r := by
  intro trs
  induction trs with
  | nil =>
    intro acc L hacc h
    simp only [searchRows] at h
    injection h with h
    exact h ▸ hacc
  | cons tr rest ih =>
    intro acc L hacc h
    rcases hpr : processRow env pi pf false tr with ⟨recs, e2⟩
    cases e2 with
    | none =>
      rw [searchRows, hpr] at h
      refine ih (acc ++ recs) L ?_ h
      intro r hr
      rcases List.mem_append.mp hr with hr | hr
      · exact hacc r hr
      · exact hrow tr r (by rw [hpr]; exact hr)
    | some e =>
      rw [searchRows, hpr] at h
      exact absurd h (by simp)

/-- The per-query row loop of `search_multi` appends every row's emitted
records, failing rows included, to the accumulator. -/
theorem multiRowsAcc_eq (env : Env) (pi pf : Bool) :
    ∀ (trs : List Tr) (acc : List SearchResult),
      multiRowsAcc env pi pf acc trs =
        acc ++ (trs.map fun tr => (processRow env pi pf true tr).1).flatten := by
  intro trs
  induction trs with
  | nil => intro acc; simp [multiRowsAcc]
  | cons tr rest ih =>
    intro acc
    rw [multiRowsAcc, ih]
    simp [List.append_assoc]

/-- When every query GET yields a response, the query loop of
`search_multi` accumulates every query's records and raises nothing. -/
theorem multiGo_ok (env : Env) (pi pf : Bool) :
    ∀ (qs : List String) (acc : List SearchResult),
      (∀ q ∈ qs, ∃ s pg t, env.get (searchUrl q) = .resp s pg t) →
      multiGo env pi pf qs acc = .ok (acc ++ (qs.map (queryOut env pi pf)).flatten) := by
  intro qs
  induction qs with
  | nil => intro acc _; simp [multiGo]
  | cons q rest ih =>
    intro acc hall
    obtain ⟨s, pg, t, hq⟩ := hall q (List.mem_cons_self _ _)
    have hrest : ∀ q2 ∈ rest, ∃ s2 pg2 t2, env.get (searchUrl q2) = .resp s2 pg2 t2 :=
      fun q2 hq2 => hall q2 (List.mem_cons_of_mem q hq2)
    by_cases hs : s = 200
    · subst hs
      cases htab : pg.zbtable with
      | none =>
        rw [multiGo, hq]
        simp only [ne_eq, not_true_eq_false, if_false, htab, ite_self]
        rw [ih acc hrest]
        simp [queryOut, hq, htab]
      | some table =>
        rw [multiGo, hq]
        simp only [ne_eq, not_true_eq_false, if_false, htab]
        rw [ih _ hrest, multiRowsAcc_eq]
        simp [queryOut, hq, htab, List.append_assoc]
    · rw [multiGo, hq]
      simp only [ne_eq, hs, not_false_eq_true, if_true]
      rw [ih acc hrest]
      simp [queryOut, hq, hs]

/-- A property holding of every record every row emits holds of everything
the query loop of `search_multi` returns. -/
theorem multiGo_preserve {env : Env} {pi pf : Bool} (P : SearchResult → Prop)
    (hrow : ∀ tr r, r ∈ (processRow env pi pf true tr).1 → P r) :
    ∀ (qs : List String) (acc L : List SearchResult),
      (∀ r ∈ acc, P r) → multiGo env pi pf qs acc = .ok L →
      ∀ r ∈ L, P r := by
  intro qs
  induction qs with
  | nil =>
    intro acc L hacc h
    simp only [multiGo] at h
    injection h with h
    exact h ▸ hacc
  | cons q rest ih =>
    intro acc L hacc h
    rw [multiGo] at h
    cases hg : env.get (searchUrl q) with
    | exc e =>
      rw [hg] at h
      exact absurd h (by simp)
    | resp s pg t =>
      rw [hg] at h
      by_cases hs : s = 200
      · subst hs
        simp only [ne_eq, not_true_eq_false, if_false] at h
        cases htab : pg.zbtable with
        | none =>
          rw [htab] at h
          exact ih acc L hacc h
        | some table =>
          rw [htab] at h
          refine ih _ L ?_ h
          intro r hr
          rw [multiRowsAcc_eq] at hr
          rcases List.mem_append.mp hr with hr | hr
          · exact hacc r hr
          · obtain ⟨l, hl, hrl⟩ := List.mem_flatten.mp hr
            obtain ⟨tr, htr, rfl⟩ := List.mem_map.mp hl
            exact hrow tr r hrl
      · simp only [ne_eq, hs, not_false_eq_true, if_true] at h
        exact ih acc L hacc h

/-! ## Concrete fixtures for witnesses and counterexamples -/

/-- A decodable torrent body used by the concrete environments. -/
def torW : TorrentFile := ⟨"magnet:?xt=urn:btih:ABC", "ABC", ["f1"]⟩

/-- A cell holding only text. -/
def plainTd (s : String) : Td := ⟨none, none, s, []⟩

/-- A name cell with two download anchors, one details anchor, and a
background-audio icon. -/
def tdNameW : Td :=
  { firstA := some ⟨some ⟨"Name1"⟩⟩,
    firstDiv := some ⟨[⟨some "/download.php?id=1"⟩, ⟨some "/download.php?id=2"⟩,
                      ⟨some "/details.php?id=1"⟩]⟩,
    text := "", imgs := [⟨some "pic/bgaudio.png"⟩] }

/-- A well-formed four-cell row, so that index -2 is the third cell
(seeders) and index -4 the first (size). -/
def trW : Tr := ⟨[plainTd "700 MB", tdNameW, plainTd "3", plainTd "x"]⟩

/-- A results page with a header row and the row `trW`. -/
def pageW : Page := ⟨some ⟨[⟨[]⟩, trW]⟩⟩

/-- Environment where login succeeds and every GET returns status 200 with
page `pageW` and torrent body `torW`. -/
def envW : Env := ⟨fun _ => .status 200, fun _ => .resp 200 pageW (.ok torW)⟩

/-- The record each download anchor of `trW` yields under
`provide_infohash = provide_files = false`. -/
def recW : SearchResult :=
  ⟨"Name1", some "magnet:?xt=urn:btih:ABC", "3", true, "700 MB", none, none⟩

/-- A name cell whose only anchor is the magnet-generating link. -/
def tdNameM : Td :=
  { firstA := some ⟨some ⟨"NameM"⟩⟩,
    firstDiv := some ⟨[⟨some "/magnetlink/42"⟩]⟩, text := "", imgs := [] }

/-- A well-formed row whose single anchor is a magnet-generating link. -/
def trM : Tr := ⟨[plainTd "700 MB", tdNameM, plainTd "3", plainTd "x"]⟩

/-- Environment whose results table holds only the magnet-anchor row. -/
def envC1 : Env :=
  ⟨fun _ => .status 200, fun _ => .resp 200 ⟨some ⟨[⟨[]⟩, trM]⟩⟩ (.ok torW)⟩

/-- A name cell with one download anchor and no images. -/
def tdName1 : Td :=
  { firstA := some ⟨some ⟨"N1"⟩⟩,
    firstDiv := some ⟨[⟨some "/download.php?id=1"⟩]⟩, text := "", imgs := [] }

/-- A well-formed row around `tdName1`. -/
def trC2 : Tr := ⟨[plainTd "700 MB", tdName1, plainTd "3", plainTd "x"]⟩

/-- A results page with a header row and the row `trC2`. -/
def pageC2 : Page := ⟨some ⟨[⟨[]⟩, trC2]⟩⟩

/-- Environment where the search page is served with status 200 but every
GET of a download URL returns 404, so `get_torrent` builds a
`DummyTorrent`. -/
def envC2 : Env :=
  ⟨fun _ => .status 200,
   fun u =>
     if pyStartsWith u "https://zamunda.net/download.php" then
       .resp 404 ⟨none⟩ (.error .valueError)
     else .resp 200 pageC2 (.ok torW)⟩

/-- Environment where every login POST raises `requests.Timeout`. -/
def envT : Env :=
  ⟨fun _ => .exc .timeout, fun _ => .resp 200 ⟨none⟩ (.ok torW)⟩

/-- A malformed row: `tds[1]` holds no `<a>`, so extracting the name raises
`AttributeError`. -/
def trBad : Tr := ⟨[plainTd "s", plainTd "q", plainTd "3", plainTd "x"]⟩

/-- A second well-formed name cell. -/
def tdName2 : Td :=
  { firstA := some ⟨some ⟨"Name2"⟩⟩,
    firstDiv := some ⟨[⟨some "/download.php?id=2"⟩]⟩, text := "", imgs := [] }

/-- A well-formed row around `tdName2`. -/
def trGood : Tr := ⟨[plainTd "1.2 GB", tdName2, plainTd "5", plainTd "x"]⟩

/-- A results page whose first data row is malformed and whose second is
well-formed. -/
def pageC6 : Page := ⟨some ⟨[⟨[]⟩, trBad, trGood]⟩⟩

/-- Environment serving `pageC6` with every fetch succeeding. -/
def envC6 : Env := ⟨fun _ => .status 200, fun _ => .resp 200 pageC6 (.ok torW)⟩

/-- The record `trGood` yields under both options off. -/
def recGood : SearchResult :=
  ⟨"Name2", some "magnet:?xt=urn:btih:ABC", "5", false, "1.2 GB", none, none⟩

/-- A name cell whose only anchor matches neither recognized pattern. -/
def tdNameD : Td :=
  { firstA := some ⟨some ⟨"NameD"⟩⟩,
    firstDiv := some ⟨[⟨some "/details.php?id=9"⟩]⟩, text := "", imgs := [] }

/-- A well-formed row with no recognized anchor. -/
def trD : Tr := ⟨[plainTd "1 GB", tdNameD, plainTd "2", plainTd "x"]⟩

/-- Environment where every GET returns status 404. -/
def env404 : Env :=
  ⟨fun _ => .status 200, fun _ => .resp 404 ⟨none⟩ (.ok torW)⟩

/-- Environment where every GET returns status 200 with a page holding no
results table. -/
def envNoTable : Env :=
  ⟨fun _ => .status 200, fun _ => .resp 200 ⟨none⟩ (.ok torW)⟩

/-! ## The claims -/

/-- Claim C1, counterexample: the claim promises one record per anchor
matching either recognized pattern, but `search` only ever tests the
download-file pattern (line 122).  On a table whose single data row holds
exactly one anchor, a magnet-generating link, `search` returns the empty
result list although one anchor matches a recognized pattern. -/
theorem search_drops_magnet_anchor_cex :
    rowAnchors trM = [⟨some "/magnetlink/42"⟩] ∧
    specRecognizedHref "/magnetlink/42" = true ∧
    search envC1 "q" "u" "p" false false = .ok (some []) :=
  ⟨by decide, by decide, by decide⟩

/-- Claim C1 (amended): for every well-formed search response with a
non-empty results table whose data rows all parse without raising, `search`
emits exactly one record per anchor whose href matches the download-file
pattern (href begins with `/download.php`) — magnet-generating anchors
yield nothing — preserving row order, and a row with several matching
anchors yields several records sharing that row's name, seeders, size and
audio flag. -/
theorem search_one_record_per_download_anchor
    (env : Env) (ss user password : String) (pi pf : Bool)
    (page : Page) (tor : Except PyExc TorrentFile) (table : ZbTable)
    (hLogin : (login env.postLogin user password 3 2).result = .ok ())
    (hGet : env.get (searchUrl ss) = .resp 200 page tor)
    (hTable : page.zbtable = some table)
    (hRows : ∀ tr ∈ table.trs.drop 1, (processRow env pi pf false tr).2 = none) :
    search env ss user password pi pf =
      .ok (some ((table.trs.drop 1).map fun tr => (processRow env pi pf false tr).1).flatten)
    ∧ ∀ tr ∈ table.trs.drop 1, ∀ name hrefs seeds size audio,
        rowHeader false tr = .ok (name, hrefs, seeds, size, audio) →
        List.Forall₂ (fun h r =>
            mkRecord env pi pf name seeds audio size h = .ok r ∧
            r.name = name ∧ r.seeders = seeds ∧ r.size = size ∧ r.bg_audio = audio)
          (downloadHrefs hrefs) (processRow env pi pf false tr).1 := by
  constructor
  · unfold search
    simp only [hLogin, hGet, hTable, ne_eq, not_true_eq_false, if_false]
    rw [searchRows_ok env pi pf _ [] hRows]
    simp [Except.map]
  · intro tr htr name hrefs seeds size audio hrh
    have h2 : (processRow env pi pf false tr).2 = none := hRows tr htr
    have hpe : processRow env pi pf false tr =
        emitAnchors env pi pf name seeds audio size hrefs := by
      unfold processRow; rw [hrh]
    rw [hpe] at h2 ⊢
    refine (emitAnchors_forall2 env pi pf name seeds audio size hrefs h2).imp ?_
    intro h r hm
    obtain ⟨h1, h2, h3, h4, -⟩ := mkRecord_fields hm
    exact ⟨hm, h1, h2, h3, h4⟩

/-- Claim C1, witness: on the concrete one-row table with two download
anchors, `search` returns two records sharing name, seeders, size and
audio flag. -/
theorem search_one_record_per_download_anchor_witness :
    search envW "a" "u" "p" false false = .ok (some [recW, recW]) :=
  ((search_one_record_per_download_anchor envW "a" "u" "p" false false pageW
      (.ok torW) ⟨[⟨[]⟩, trW]⟩ (by decide) rfl rfl (by decide)).1).trans (by decide)

/-- Claim C2: the claim says a torrent fetch returning a non-200 status
yields a record with `infohash` and `files` both absent, with no error
raised, for every option combination.  The code's placeholder
`DummyTorrent` defines `magnet_link` and `info_hash` but no `files`
attribute, so with `provide_files = True` the row construction raises
`AttributeError`: `search` propagates it and `search_multi` silently drops
the row.  Only with `provide_files = False` does the claimed record with
both fields absent appear. -/
theorem dummy_torrent_missing_files_attribute :
    (∀ pi : Bool, search envC2 "x" "u" "p" pi true = .error .attributeError)
    ∧ (∀ pi : Bool, search envC2 "x" "u" "p" pi false =
        .ok (some [⟨"N1", none, "3", false, "700 MB", none, none⟩]))
    ∧ (∀ pi : Bool, search_multi envC2 ["x"] "u" "p" pi true = .ok []) :=
  ⟨by decide, by decide, by decide⟩

/-- Claim C3: the claim (and the function's own docstring) promise bounded
retries with `factor^N` backoff on consecutive connection failures.  The
login POST of a requests `Session` raises
`requests.exceptions.ConnectionError`, which does not subclass the builtin
`ConnectionError` named in the first `except` clause (line 64), so it falls
through to the `RequestException` clause and propagates after one call with
no sleep and no retry.  The retry-and-backoff branch is reachable only by
the builtin `ConnectionError`, for which the `factor^N` sleeps do occur. -/
theorem login_connection_error_not_retried :
    login (fun _ => .exc .requestsConnectionError) "u" "p" 3 2 =
      ⟨.error .requestsConnectionError, [], 1⟩
    ∧ login (fun _ => .exc .builtinConnectionError) "u" "p" 3 2 =
      ⟨.error .builtinConnectionError, [2, 4, 8], 4⟩ :=
  ⟨by decide, by decide⟩

/-- Claim C4, counterexample: on authentication failure `search` executes
`return None` (line 93), not an empty sequence of results: the returned
value is `None`, distinct from the empty list the claim promises. -/
theorem search_auth_failure_returns_none_cex :
    search envW "q" "" "p" false false = .ok none ∧
    (Except.ok none : Except PyExc (Option (List SearchResult))) ≠ .ok (some []) :=
  ⟨by decide, by decide⟩

/-- Claim C4 (amended): both entry points authenticate first and convert
any authentication failure into a non-raising return — `search` returns
`None` (not a list), while `search_multi` returns the empty list. -/
theorem auth_failure_search_none_multi_empty
    (env : Env) (ss : String) (queries : List String) (user password : String)
    (pi pf : Bool) (e : PyExc)
    (hfail : (login env.postLogin user password 3 2).result = .error e) :
    search env ss user password pi pf = .ok none ∧
    search_multi env queries user password pi pf = .ok [] := by
  constructor
  · unfold search
    simp only [hfail]
  · unfold search_multi
    simp only [hfail]

/-- Claim C4, witness: with every login POST timing out, `search` returns
`None` and `search_multi` the empty list, neither raising. -/
theorem auth_failure_search_none_multi_empty_witness :
    search envT "q" "u" "p" false false = .ok none ∧
    search_multi envT ["q"] "u" "p" false false = .ok [] :=
  auth_failure_search_none_multi_empty envT "q" ["q"] "u" "p" false false .timeout (by decide)

/-- Claim C5: a record is only ever emitted from an anchor whose href is
present and matches a recognized pattern (in this code always the
download-file one, hence one of the spec's two patterns), and a row none
of whose anchors matches either pattern emits no record. -/
theorem records_only_from_recognized_anchors
    (env : Env) (pi pf gen : Bool) (tr : Tr) :
    ((∀ a ∈ rowAnchors tr, ∀ h, a.href = some h → specRecognizedHref h = false) →
      (processRow env pi pf gen tr).1 = [])
    ∧ ∀ r ∈ (processRow env pi pf gen tr).1,
        ∃ a ∈ rowAnchors tr, ∃ h, a.href = some h ∧ specRecognizedHref h = true := by
  constructor
  · exact processRow_nil_of_unrecognized
  · intro r hr
    obtain ⟨name, seeds, audio, size, a, ha, h, hhref, hdl, -⟩ := mem_processRow hr
    exact ⟨a, ha, h, hhref, by simp [specRecognizedHref, hdl]⟩

/-- Claim C5, witness: the row whose only anchor is a details link emits
nothing, and the emitted record of the well-formed row comes from a
recognized anchor. -/
theorem records_only_from_recognized_anchors_witness :
    (processRow envW false false false trD).1 = [] ∧
    ∃ a ∈ rowAnchors trW, ∃ h, a.href = some h ∧ specRecognizedHref h = true :=
  ⟨(records_only_from_recognized_anchors envW false false false trD).1 (by decide),
   (records_only_from_recognized_anchors envW false false false trW).2 recW (by decide)⟩

/-- Claim C6, counterexample: the claim says a parse failure in a single
row is caught and only that row skipped, never aborting the whole call.
In `search` the row loop has no exception handler: with a malformed first
data row and a well-formed second row, `search` aborts with the
`AttributeError`, returning nothing, while `search_multi` on the same data
returns the second row's record. -/
theorem search_row_failure_aborts_cex :
    search envC6 "q" "u" "p" false false = .error .attributeError ∧
    search_multi envC6 ["q"] "u" "p" false false = .ok [recGood] :=
  ⟨by decide, by decide⟩

/-- Claim C6 (amended): in `search_multi`, a failure while parsing a row is
caught and skips (the remainder of) that row only: every remaining row and
query is still processed and the accumulated records of all queries are
returned, the call never aborting from a row failure.  In `search` a row
parse failure aborts the whole call. -/
theorem multi_row_failures_skip_only_that_row
    (env : Env) (queries : List String) (user password : String) (pi pf : Bool)
    (hLogin : (login env.postLogin user password 3 2).result = .ok ())
    (hResp : ∀ q ∈ queries, ∃ s pg t, env.get (searchUrl q) = .resp s pg t) :
    search_multi env queries user password pi pf =
      .ok ((queries.map (queryOut env pi pf)).flatten) := by
  unfold search_multi
  simp only [hLogin]
  simpa using multiGo_ok env pi pf queries [] hResp

/-- Claim C6, witness: on the page whose first data row is malformed,
`search_multi` still returns the well-formed second row's record. -/
theorem multi_row_failures_skip_only_that_row_witness :
    search_multi envC6 ["q"] "u" "p" false false = .ok [recGood] :=
  (multi_row_failures_skip_only_that_row envC6 ["q"] "u" "p" false false (by decide)
    (fun q _ => ⟨200, pageC6, .ok torW, rfl⟩)).trans (by decide)

/-- Claim C7: an empty user or an empty password makes `login` fail
deterministically with the `ValueError` of line 38 (the InvalidCredentials
error), with zero network calls issued — hence before any network request
and with the session untouched — and no sleeps. -/
theorem empty_credentials_fail_before_network
    (net : Nat → ReqOutcome) (user password : String) (retries bf : Nat)
    (h : user = "" ∨ password = "") :
    login net user password retries bf = ⟨.error .valueError, [], 0⟩ := by
  unfold login
  rw [if_pos h]

/-- Claim C7, witness: empty user with any network behaviour. -/
theorem empty_credentials_fail_before_network_witness :
    login (fun _ => .status 200) "" "pw" 3 2 = ⟨.error .valueError, [], 0⟩ :=
  empty_credentials_fail_before_network (fun _ => .status 200) "" "pw" 3 2 (Or.inl rfl)

/-- Claim C8: a `Timeout` on the first POST makes `login` fail at once with
that exception after exactly one request and no sleep; likewise an HTTP
error status (the 4xx/5xx range for which `raise_for_status` raises
`HTTPError`) and any other non-timeout, non-connection
`RequestException` propagate at once with no retry and no backoff. -/
theorem timeout_and_request_errors_fail_fast
    (net : Nat → ReqOutcome) (user password : String) (retries bf : Nat)
    (hu : user ≠ "") (hp : password ≠ "") :
    (net 0 = .exc .timeout →
      login net user password retries bf = ⟨.error .timeout, [], 1⟩)
    ∧ (∀ c, net 0 = .status c → 400 ≤ c → c < 600 →
      login net user password retries bf = ⟨.error (.httpError c), [], 1⟩)
    ∧ (net 0 = .exc .otherRequestException →
      login net user password retries bf = ⟨.error .otherRequestException, [], 1⟩) := by
  have hne : ¬(user = "" ∨ password = "") := by
    rintro (h | h)
    · exact hu h
    · exact hp h
  have hstep : login net user password retries bf =
      loginAux net retries bf (retries + 2) 0 0 := by
    unfold login
    rw [if_neg hne]
  refine ⟨?_, ?_, ?_⟩
  · intro h0
    rw [hstep, loginAux]
    simp [h0, Nat.not_lt_zero]
  · intro c h0 hc4 hc6
    have hc200 : ¬(c = 200) := by omega
    rw [hstep, loginAux]
    simp [h0, Nat.not_lt_zero, hc200, hc4, hc6]
  · intro h0
    rw [hstep, loginAux]
    simp [h0, Nat.not_lt_zero]

/-- Claim C8, witness: concrete runs for the timeout, the 404 and the
other-request-error cases. -/
theorem timeout_and_request_errors_fail_fast_witness :
    login (fun _ => .exc .timeout) "u" "p" 3 2 = ⟨.error .timeout, [], 1⟩ ∧
    login (fun _ => .status 404) "u" "p" 3 2 = ⟨.error (.httpError 404), [], 1⟩ ∧
    login (fun _ => .exc .otherRequestException) "u" "p" 3 2 =
      ⟨.error .otherRequestException, [], 1⟩ :=
  ⟨(timeout_and_request_errors_fail_fast (fun _ => .exc .timeout) "u" "p" 3 2
      (by decide) (by decide)).1 rfl,
   (timeout_and_request_errors_fail_fast (fun _ => .status 404) "u" "p" 3 2
      (by decide) (by decide)).2.1 404 rfl (by decide) (by decide),
   (timeout_and_request_errors_fail_fast (fun _ => .exc .otherRequestException) "u" "p" 3 2
      (by decide) (by decide)).2.2 rfl⟩

/-- Claim C9: after a successful login, a non-200 search response yields
the empty result list, and a 200 response whose page holds no `zbtable`
table also yields the empty result list; neither path raises. -/
theorem non_200_or_missing_table_empty
    (env : Env) (ss user password : String) (pi pf : Bool)
    (hLogin : (login env.postLogin user password 3 2).result = .ok ()) :
    (∀ c page tor, env.get (searchUrl ss) = .resp c page tor → c ≠ 200 →
      search env ss user password pi pf = .ok (some []))
    ∧ (∀ page tor, env.get (searchUrl ss) = .resp 200 page tor → page.zbtable = none →
      search env ss user password pi pf = .ok (some [])) := by
  constructor
  · intro c page tor hget hc
    unfold search
    simp only [hLogin, hget]
    simp [hc]
  · intro page tor hget htab
    unfold search
    simp only [hLogin, hget, htab]
    simp

/-- Claim C9, witness: a 404 response and a table-less 200 response both
yield the empty result list. -/
theorem non_200_or_missing_table_empty_witness :
    search env404 "a" "u" "p" false false = .ok (some []) ∧
    search envNoTable "a" "u" "p" false false = .ok (some []) :=
  ⟨(non_200_or_missing_table_empty env404 "a" "u" "p" false false (by decide)).1
      404 ⟨none⟩ (.ok torW) rfl (by decide),
   (non_200_or_missing_table_empty envNoTable "a" "u" "p" false false (by decide)).2
      ⟨none⟩ (.ok torW) rfl rfl⟩

/-- Claim C10: every record either entry point returns has `infohash = None`
whenever `provide_infohash` is off and `files = None` whenever
`provide_files` is off, whatever the fetched torrent contained. -/
theorem optional_fields_none_when_disabled
    (env : Env) (ss : String) (queries : List String) (user password : String)
    (pi pf : Bool) :
    (∀ L, search env ss user password pi pf = .ok (some L) →
      ∀ r ∈ L, (pi = false → r.infohash = none) ∧ (pf = false → r.files = none))
    ∧ (∀ L, search_multi env queries user password pi pf = .ok L →
      ∀ r ∈ L, (pi = false → r.infohash = none) ∧ (pf = false → r.files = none)) := by
  have hrowP : ∀ (gen : Bool) (tr : Tr) (r : SearchResult),
      r ∈ (processRow env pi pf gen tr).1 →
      (pi = false → r.infohash = none) ∧ (pf = false → r.files = none) := by
    intro gen tr r hr
    obtain ⟨name, seeds, audio, size, a, ha, h, hhref, hdl, hmk⟩ := mem_processRow hr
    obtain ⟨-, -, -, -, h5, h6⟩ := mkRecord_fields hmk
    exact ⟨h5, h6⟩
  constructor
  · intro L hL r hr
    unfold search at hL
    cases hlog : (login env.postLogin user password 3 2).result with
    | error e => rw [hlog] at hL; exact absurd hL (by simp)
    | ok u =>
      rw [hlog] at hL
      cases hg : env.get (searchUrl ss) with
      | exc e => rw [hg] at hL; exact absurd hL (by simp)
      | resp s pg t =>
        rw [hg] at hL
        by_cases hs : s = 200
        · subst hs
          simp only [ne_eq, not_true_eq_false, if_false] at hL
          cases htab : pg.zbtable with
          | none =>
            rw [htab] at hL
            simp at hL
            subst hL
            simp at hr
          | some table =>
            rw [htab] at hL
            simp only [] at hL
            cases hsr : searchRows env pi pf (table.trs.drop 1) [] with
            | error e =>
              rw [hsr] at hL
              exact absurd hL (by simp [Except.map])
            | ok L2 =>
              rw [hsr] at hL
              simp [Except.map] at hL
              subst hL
              exact searchRows_preserve _ (hrowP false) _ [] L2 (by simp) hsr r hr
        · simp only [ne_eq, hs, not_false_eq_true, if_true] at hL
          simp at hL
          subst hL
          simp at hr
  · intro L hL r hr
    unfold search_multi at hL
    cases hlog : (login env.postLogin user password 3 2).result with
    | error e =>
      rw [hlog] at hL
      injection hL with hL
      subst hL
      simp at hr
    | ok u =>
      rw [hlog] at hL
      exact multiGo_preserve _ (hrowP true) queries [] L (by simp) hL r hr

/-- Claim C10, witness: the record returned by the concrete search with
both options off has both optional fields absent. -/
theorem optional_fields_none_when_disabled_witness :
    recW.infohash = none ∧ recW.files = none :=
  ⟨((optional_fields_none_when_disabled envW "a" [] "u" "p" false false).1
      [recW, recW] (by decide) recW (by decide)).1 rfl,
   ((optional_fields_none_when_disabled envW "a" [] "u" "p" false false).1
      [recW, recW] (by decide) recW (by decide)).2 rfl⟩

end Zamunda
